import Mathlib

/-!
Verification development for the job-automation repository.

The Python modules under src/ are shallowly embedded as executable Lean
definitions.  Strings are modelled by Lean `String`; all character-level
operations (lowercasing, substring search, whitespace splitting, slicing)
are implemented over `String.data` so that they evaluate inside the kernel.
Browser and network effects are modelled by explicit environment records
that record the observations made by the code (element found or not,
visible or enabled flags, click outcomes), and emitted user-interface
actions are collected in explicit traces.  Python exceptions are modelled
with `Except`.
-/

/-! ## String primitives (model of Python str operations) -/

/-- Model of list-segment matching at the head: `listPre p s` holds when
`p` is an initial segment of `s`. -/
def listPre : List Char → List Char → Bool
  | [], _ => true
  | _ :: _, [] => false
  | a :: as, b :: bs => a = b && listPre as bs

/-- Model of the Python `in` operator on strings, at the character-list
level: `listSub pat s` holds when `pat` occurs contiguously inside `s`. -/
def listSub (pat : List Char) : List Char → Bool
  | [] => pat.isEmpty
  | b :: bs => listPre pat (b :: bs) || listSub pat bs

/-- Model of the Python expression `pat in s` for strings. -/
def containsSub (s pat : String) : Bool := listSub pat.data s.data

/-- Model of Python `str.lower()` (ASCII-level, as used by the sources). -/
def lowerStr (s : String) : String := ⟨s.data.map Char.toLower⟩

/-- Helper for `pySplit`: walk the characters, accumulating the current
word reversed, emitting words at whitespace boundaries. -/
def pySplitAux : List Char → List Char → List (List Char)
  | [], cur => if cur.isEmpty then [] else [cur.reverse]
  | c :: cs, cur =>
    if c.isWhitespace then
      (if cur.isEmpty then pySplitAux cs [] else cur.reverse :: pySplitAux cs [])
    else pySplitAux cs (c :: cur)

/-- Model of Python `str.split()` with no separator argument: split on
whitespace runs and drop empty pieces. -/
def pySplit (s : String) : List String := (pySplitAux s.data []).map (fun cs => ⟨cs⟩)

/-- Model of Python string slicing `s[:n]` (first `n` characters). -/
def strTake (s : String) (n : Nat) : String := ⟨s.data.take n⟩

/-- Model of Python `str.startswith` (used only to state claims about
address prefixes; the source filter itself uses `in`). -/
def startsWith (s pat : String) : Bool := listPre pat.data s.data

/-! ## src/modules/ai_form_analyzer.py — field mapping

`AIFormAnalyzer.get_field_mapping` iterates over the inventoried text-like
inputs.  Each input carries the attributes extracted by
`_extract_form_elements` (id, name, placeholder, aria-label, all
defaulting to the empty string). -/

/-- An inventoried text-like input element, as produced by
`_extract_form_elements` (attribute defaults are the empty string). -/
structure InputElem where
  id : String := ""
  name : String := ""
  placeholder : String := ""
  ariaLabel : String := ""
deriving DecidableEq

/-- The user-data dictionary consumed by `get_field_mapping`
(`user_data.get(key, '')` lookups are modelled by total fields). -/
structure UserData where
  email : String := ""
  phone : String := ""
  name : String := ""
  linkedin : String := ""
  portfolio : String := ""
  address : String := ""
  yearsExperience : String := ""
deriving DecidableEq

/-- Model of `field_id = input_elem.get('id') or input_elem.get('name')`:
the empty string is falsy in Python, so a non-empty id wins, otherwise the
name attribute is used. -/
def fieldId (e : InputElem) : String := if e.id = "" then e.name else e.id

/-- Model of the composite string the source classifies against:
`(field_id + ' ' + placeholder + ' ' + aria_label).lower()`.  Note that it
is built from `field_id` (id or name, not both), placeholder and
aria-label. -/
def compositeOf (e : InputElem) : String :=
  lowerStr (fieldId e ++ " " ++ e.placeholder ++ " " ++ e.ariaLabel)

/-- The composite string as the specification describes it: built from all
four of id, name, placeholder and aria-label.  This definition follows the
words of the specification and is compared against `compositeOf`, which is
translated from the source. -/
def specComposite (e : InputElem) : String :=
  lowerStr (e.id ++ " " ++ e.name ++ " " ++ e.placeholder ++ " " ++ e.ariaLabel)

/-- The nine field categories tested by the if/elif chain in
`get_field_mapping`, in source order. -/
inductive Category where
  | email | phone | firstName | lastName | fullName
  | linkedinUrl | portfolioUrl | addressLoc | yearsExp
deriving DecidableEq

/-- The keyword list of each category, copied from the source chain. -/
def catKeywords : Category → List String
  | .email => ["email", "e-mail"]
  | .phone => ["phone", "mobile", "telephone"]
  | .firstName => ["first", "fname", "firstname"]
  | .lastName => ["last", "lname", "lastname"]
  | .fullName => ["name", "full"]
  | .linkedinUrl => ["linkedin", "profile"]
  | .portfolioUrl => ["portfolio", "website", "github"]
  | .addressLoc => ["address", "location", "city"]
  | .yearsExp => ["experience", "years"]

/-- Model of `any(keyword in field_lower for keyword in [...])` for one
category. -/
def matchesCat (c : Category) (s : String) : Bool :=
  (catKeywords c).any (fun k => containsSub s k)

/-- Position of each category in the if/elif chain of the source. -/
def priorIdx : Category → Nat
  | .email => 0
  | .phone => 1
  | .firstName => 2
  | .lastName => 3
  | .fullName => 4
  | .linkedinUrl => 5
  | .portfolioUrl => 6
  | .addressLoc => 7
  | .yearsExp => 8

/-- Model of the if/elif keyword chain: the first category whose keyword
list hits the composite string wins; no hit means the field is left
unmapped. -/
def classify (s : String) : Option Category :=
  if matchesCat .email s then some .email
  else if matchesCat .phone s then some .phone
  else if matchesCat .firstName s then some .firstName
  else if matchesCat .lastName s then some .lastName
  else if matchesCat .fullName s then some .fullName
  else if matchesCat .linkedinUrl s then some .linkedinUrl
  else if matchesCat .portfolioUrl s then some .portfolioUrl
  else if matchesCat .addressLoc s then some .addressLoc
  else if matchesCat .yearsExp s then some .yearsExp
  else none

/-- The value the chain assigns for each category.  The first-name branch
is `user_data.get('name', '').split()[0]`, which raises `IndexError` when
the split list is empty; this is the only fallible branch and is modelled
with `Except`.  The last-name branch guards with
`name_parts[-1] if len(name_parts) > 1 else ''` and is total. -/
def valueFor (u : UserData) : Category → Except Unit String
  | .email => .ok u.email
  | .phone => .ok u.phone
  | .firstName =>
    match pySplit u.name with
    | [] => .error ()
    | t :: _ => .ok t
  | .lastName =>
    let ps := pySplit u.name
    .ok (if ps.length > 1 then ps.getLast?.getD "" else "")
  | .fullName => .ok u.name
  | .linkedinUrl => .ok u.linkedin
  | .portfolioUrl => .ok u.portfolio
  | .addressLoc => .ok u.address
  | .yearsExp => .ok u.yearsExperience

/-- Model of `field_mapping[field_id] = value` on a Python dict preserving
insertion order: overwrite in place if the key exists, else append. -/
def insertAssoc (m : List (String × String)) (k v : String) : List (String × String) :=
  if m.any (fun p => p.1 = k) then m.map (fun p => if p.1 = k then (k, v) else p)
  else m ++ [(k, v)]

/-- One iteration of the mapping loop: skip fields with no usable
identifier, classify the composite, assign the corresponding value.  An
`IndexError` from the first-name branch aborts the whole loop. -/
def processInput (u : UserData) (m : List (String × String)) (e : InputElem) :
    Except Unit (List (String × String)) :=
  if fieldId e = "" then .ok m
  else
    match classify (compositeOf e) with
    | none => .ok m
    | some c => (valueFor u c).map (fun v => insertAssoc m (fieldId e) v)

/-- The mapping loop over all inventoried inputs, propagating a raised
exception. -/
def runInputs (u : UserData) : List InputElem → List (String × String) →
    Except Unit (List (String × String))
  | [], m => .ok m
  | e :: es, m =>
    match processInput u m e with
    | .ok m2 => runInputs u es m2
    | .error x => .error x

/-- Model of `AIFormAnalyzer.get_field_mapping`: run the loop; the
enclosing `try/except` returns the empty mapping on any exception. -/
def get_field_mapping (u : UserData) (inputs : List InputElem) : List (String × String) :=
  match runInputs u inputs [] with
  | .ok m => m
  | .error _ => []

/-! ## src/modules/ai_form_analyzer.py — application-type detection

`detect_application_type` reads the current URL and the full HTML; a hard
failure of either read (the enclosing `try/except`) yields `'unknown'`.
The observation is modelled as `Option (String × String)`: `none` is the
exception path, `some (url, html)` the successful page fetch. -/

/-- Model of `AIFormAnalyzer.detect_application_type`.  The URL is tested
against six brand substrings (`ashby` is matched via the literal
`ashbyhq`); the HTML is then tested against `greenhouse` and `lever`
only; otherwise `'custom'`. -/
def detect_application_type : Option (String × String) → String
  | none => "unknown"
  | some (url, html) =>
    if containsSub (lowerStr url) "greenhouse" then "greenhouse"
    else if containsSub (lowerStr url) "lever" then "lever"
    else if containsSub (lowerStr url) "workday" then "workday"
    else if containsSub (lowerStr url) "taleo" then "taleo"
    else if containsSub (lowerStr url) "smartrecruiters" then "smartrecruiters"
    else if containsSub (lowerStr url) "ashbyhq" then "ashby"
    else if containsSub (lowerStr html) "greenhouse" then "greenhouse"
    else if containsSub (lowerStr html) "lever" then "lever"
    else "custom"

/-- The closed set of classification tags named by the specification. -/
def atsTags : List String :=
  ["greenhouse", "lever", "workday", "taleo", "smartrecruiters", "ashby", "custom", "unknown"]

/-! ## src/modules/job_scraper.py — relevance post-filter -/

/-- A scraped job posting (the fields consulted by the filter). -/
structure Job where
  title : String
  description : String
deriving DecidableEq

/-- Model of `job_text = f"{job['title']} {job['description']}".lower()`. -/
def jobText (j : Job) : String := lowerStr (j.title ++ " " ++ j.description)

/-- Model of `match_count = sum(1 for keyword in JOB_RELEVANCE_KEYWORDS if
keyword.lower() in job_text)`. -/
def scoreOf (kws : List String) (j : Job) : Nat :=
  kws.countP (fun k => containsSub (jobText j) (lowerStr k))

/-- Sort key: `x.get('relevance_score', 0)`. -/
def keyOf (p : Job × Option Nat) : Nat := p.2.getD 0

/-- Insert into a list sorted by descending key, placing the new element
after all elements of greater-or-equal key (the placement produced by a
stable descending sort for the latest-seen element). -/
def insScored (x : Job × Option Nat) : List (Job × Option Nat) → List (Job × Option Nat)
  | [] => [x]
  | y :: ys => if keyOf y < keyOf x then x :: y :: ys else y :: insScored x ys

/-- Model of `relevant_jobs.sort(key=lambda x: x.get('relevance_score', 0),
reverse=True)`: a stable sort by descending relevance score, realised as a
left-to-right stable insertion sort (observationally identical to the
stable sort performed by Python). -/
def sortDescScore (l : List (Job × Option Nat)) : List (Job × Option Nat) :=
  l.foldl (fun acc x => insScored x acc) []

/-- Model of `JobScraper._filter_relevant_jobs`: with no configured
keywords the input list is returned unscored; otherwise postings with at
least one keyword hit are kept, annotated with their match count, and
stably sorted by descending count. -/
def filter_relevant_jobs (kws : List String) (jobs : List Job) : List (Job × Option Nat) :=
  if kws.isEmpty then jobs.map (fun j => (j, none))
  else
    sortDescScore
      ((jobs.filter (fun j => 0 < scoreOf kws j)).map (fun j => (j, some (scoreOf kws j))))

/-! ## src/modules/email_extractor.py — final email filter -/

/-- The unwanted substrings of `_filter_emails` (named prefixes in the
source comment, but tested with the `in` operator). -/
def unwantedWords : List String :=
  ["noreply", "no-reply", "donotreply", "support", "info", "sales", "marketing", "press"]

/-- The HR-preferred substrings of `_filter_emails`. -/
def preferredWords : List String :=
  ["hr", "careers", "jobs", "recruitment", "talent", "hiring", "recruit", "people", "join"]

/-- One iteration of the `_filter_emails` loop: skip when any unwanted
word occurs anywhere in the lowercased address; both the preferred branch
and the fallback branch add the address. -/
def keepEmail (e : String) : Bool :=
  if unwantedWords.any (fun w => containsSub (lowerStr e) w) then false
  else if preferredWords.any (fun w => containsSub (lowerStr e) w) then true
  else true

/-- Model of `EmailExtractor._filter_emails` (the input set is modelled as
a list; the claims are about membership). -/
def filter_emails (emails : List String) : List String := emails.filter keepEmail

/-! ## src/modules/excel_writer.py — application log -/

/-- The submitted fields of one application record (every lookup in the
source is `application_data.get(key, '')`).  The generated timestamp
column is not part of the submitted data and is not modelled. -/
structure AppData where
  companyName : String := ""
  companyUrl : String := ""
  careerUrl : String := ""
  jobTitle : String := ""
  jobLocation : String := ""
  jobDescription : String := ""
  applyLink : String := ""
  hrEmail : String := ""
  statusText : String := ""
  errorText : String := ""
  resumePath : String := ""
deriving DecidableEq

/-- A stored log row (same columns). -/
structure Row where
  companyName : String
  companyUrl : String
  careerUrl : String
  jobTitle : String
  jobLocation : String
  jobDescription : String
  applyLink : String
  hrEmail : String
  statusText : String
  errorText : String
  resumePath : String
deriving DecidableEq

/-- The row constructed by `add_application`: every field is copied, and
the description is truncated by `[:500]`. -/
def rowOf (d : AppData) : Row :=
  { companyName := d.companyName
    companyUrl := d.companyUrl
    careerUrl := d.careerUrl
    jobTitle := d.jobTitle
    jobLocation := d.jobLocation
    jobDescription := strTake d.jobDescription 500
    applyLink := d.applyLink
    hrEmail := d.hrEmail
    statusText := d.statusText
    errorText := d.errorText
    resumePath := d.resumePath }

/-- Model of `ExcelWriter.add_application`: read the whole log, append one
row, rewrite.  The Excel file is modelled by the list of its rows. -/
def add_application (log : List Row) (d : AppData) : List Row := log ++ [rowOf d]

/-- Model of `ExcelWriter.get_all_applications`: read the log back. -/
def get_all_applications (log : List Row) : List Row := log

/-! ## src/modules/form_filler.py — classic form filler and test mode -/

/-- User-interface actions performed by `FormFiller`; the trace records
what the browser is asked to do.  `clickSubmitControl` is the
`human_click` on a submit selector inside `_submit_form`. -/
inductive FFAction where
  | fillField
  | uploadResume
  | clickSubmitControl
deriving DecidableEq

/-- Environment observed by one `fill_application_form` attempt:
navigation outcome, the field-fill count returned by
`_detect_and_fill_fields`, the `_upload_resume` outcome, whether
`_find_submit_button` finds a submit control, and whether the click inside
`_submit_form` succeeds. -/
structure FFEnv where
  navOk : Bool
  filledFields : Nat
  resumeUploaded : Bool
  submitFound : Bool
  submitClickOk : Bool
deriving DecidableEq

/-- Result dictionary of `fill_application_form`.  A missing
`manual_required` key is modelled as `false`; the navigation-failure
result carries no counts and is modelled with zero defaults. -/
structure FFResult where
  success : Bool
  message : String
  fieldsFilled : Nat := 0
  resumeUploaded : Bool := false
  manualRequired : Bool := false
deriving DecidableEq

/-- Model of `FormFiller.fill_application_form` together with its action
trace.  Field filling and resume upload happen before the `TEST_MODE`
check; in test mode the function returns a success dictionary without ever
reaching `_submit_form`, so no submit control is clicked. -/
def fill_application_form (testMode : Bool) (env : FFEnv) : FFResult × List FFAction :=
  if env.navOk = false then
    ({ success := false, message := "Failed to load application page" }, [])
  else
    let fillActs :=
      List.replicate env.filledFields FFAction.fillField ++
        (if env.resumeUploaded then [FFAction.uploadResume] else [])
    if testMode then
      ({ success := true, message := "Form filled (test mode - not submitted)"
         fieldsFilled := env.filledFields, resumeUploaded := env.resumeUploaded },
       fillActs)
    else if env.submitFound then
      if env.submitClickOk then
        ({ success := true, message := "Application submitted"
           fieldsFilled := env.filledFields, resumeUploaded := env.resumeUploaded },
         fillActs ++ [FFAction.clickSubmitControl])
      else
        ({ success := false, message := "Manual submission required"
           fieldsFilled := env.filledFields, resumeUploaded := env.resumeUploaded
           manualRequired := true },
         fillActs)
    else
      ({ success := false, message := "Submit button not found"
         fieldsFilled := env.filledFields, resumeUploaded := env.resumeUploaded
         manualRequired := true },
       fillActs)

/-- The status strings of src/config.py. -/
def STATUS_SUCCESS : String := "[SUCCESS] Applied Successfully"

/-- See `STATUS_SUCCESS`. -/
def STATUS_MANUAL : String := "[MANUAL] Manual Intervention Required"

/-- See `STATUS_SUCCESS`. -/
def STATUS_FAILED : String := "[FAILED] Failed"

/-- Model of the outcome classification in
`JobAutomationPipeline.process_job`: `success` wins, then
`manual_required`, else failed. -/
def processJobStatus (r : FFResult) : String :=
  if r.success then STATUS_SUCCESS
  else if r.manualRequired then STATUS_MANUAL
  else STATUS_FAILED

/-! ## src/modules/adaptive_form_filler.py — adaptive path -/

/-- Actions performed by the adaptive submit search.  `pause` is the
`human_delay(30, 30)` review wait; `clickSubmit` would be a click on the
found control (the search never emits it). -/
inductive AAction where
  | clickSubmit
  | pause
deriving DecidableEq

/-- Observations of the submit-pattern loop in `_find_and_click_submit`:
one entry per tried pattern, `none` when the wait raises or returns no
element, `some (visible, enabled)` when an element is obtained. -/
def SubmitObs : Type := List (Option (Bool × Bool))

/-- Model of `AdaptiveFormFiller._find_and_click_submit`: walk the
patterns; on the first visible and enabled candidate, pause for manual
review and report `true` without clicking; otherwise report `false`. -/
def find_and_click_submit : List (Option (Bool × Bool)) → Bool × List AAction
  | [] => (false, [])
  | o :: rest =>
    if o = some (true, true) then (true, [AAction.pause])
    else find_and_click_submit rest

/-- Environment observed by one `_fill_adaptive` attempt: the per-field
fill outcomes of the mapping loop, whether a resume path was supplied and
the page analysis reported a file upload, the `_upload_resume_adaptive`
outcome, and the submit-search observations. -/
structure AEnv where
  fillOutcomes : List Bool
  resumeProvided : Bool
  hasFileUpload : Bool
  uploadOk : Bool
  submitObs : List (Option (Bool × Bool))
deriving DecidableEq

/-- Result dictionary of `_fill_adaptive`. -/
structure AResult where
  status : String
  fieldsFilled : Nat
  submitted : Bool
deriving DecidableEq

/-- Model of `AdaptiveFormFiller._fill_adaptive` on the exception-free
path: count successful field fills, add one when the resume upload runs
and succeeds, then search for a submit control; the status is `'success'`
exactly when the search reports `true`. -/
def fill_adaptive (env : AEnv) : AResult :=
  let base := (env.fillOutcomes.filter (fun b => b = true)).length
  let filled :=
    if env.resumeProvided && env.hasFileUpload && env.uploadOk then base + 1 else base
  let found := (find_and_click_submit env.submitObs).1
  { status := if found then "success" else "manual_required"
    fieldsFilled := filled
    submitted := found }

/-! ## Helper lemmas -/

/-- The submit search of the adaptive path: no click is ever emitted, the
report is `true` exactly when some observation is a visible and enabled
candidate, and a positive report is accompanied by the review pause. -/
theorem facs_spec (obs : List (Option (Bool × Bool))) :
    AAction.clickSubmit ∉ (find_and_click_submit obs).2
    ∧ ((find_and_click_submit obs).1 = true ↔ some (true, true) ∈ obs)
    ∧ ((find_and_click_submit obs).1 = true →
        AAction.pause ∈ (find_and_click_submit obs).2) := by
  induction obs with
  | nil => simp [find_and_click_submit]
  | cons o rest ih =>
    by_cases h : o = some (true, true)
    · subst h
      simp [find_and_click_submit]
    · simp only [find_and_click_submit, if_neg h]
      refine ⟨ih.1, ?_, ih.2.2⟩
      rw [ih.2.1]
      simp [List.mem_cons, h]
      tauto

/-! ## Claim theorems -/

/-- Claim C1, counterexample: with the test-mode flag set and a page that
loads, `fill_application_form` clicks no submit control, but it reports a
success outcome (`success = True`, no `manual_required` key), which
`process_job` records as the success status — not as the manual status the
claim requires. -/
theorem C1_counterexample :
    (fill_application_form true ⟨true, 2, true, true, true⟩).1.success = true
    ∧ (fill_application_form true ⟨true, 2, true, true, true⟩).1.manualRequired = false
    ∧ processJobStatus (fill_application_form true ⟨true, 2, true, true, true⟩).1 = STATUS_SUCCESS
    ∧ STATUS_SUCCESS ≠ STATUS_MANUAL
    ∧ FFAction.clickSubmitControl ∉ (fill_application_form true ⟨true, 2, true, true, true⟩).2 := by
  decide

/-- Claim C1, amended: with the test-mode flag set, no submit control is
ever clicked, and whenever navigation succeeds the attempt reports a
success outcome (message `Form filled (test mode - not submitted)`),
recorded by `process_job` as the success status, never as
`manual_required`. -/
theorem C1_testmode_amended (env : FFEnv) :
    FFAction.clickSubmitControl ∉ (fill_application_form true env).2
    ∧ (fill_application_form true env).1.manualRequired = false
    ∧ (env.navOk = true →
        (fill_application_form true env).1.success = true
        ∧ (fill_application_form true env).1.message = "Form filled (test mode - not submitted)"
        ∧ processJobStatus (fill_application_form true env).1 = STATUS_SUCCESS) := by
  unfold fill_application_form
  cases h : env.navOk with
  | false =>
    simp
  | true =>
    simp [List.mem_append, List.mem_replicate, processJobStatus]

/-- Claim C1 witness: the amended theorem applied to a concrete
environment whose navigation succeeds. -/
theorem C1_testmode_amended_witness :
    (fill_application_form true ⟨true, 2, true, true, true⟩).1.success = true
    ∧ (fill_application_form true ⟨true, 2, true, true, true⟩).1.message =
        "Form filled (test mode - not submitted)"
    ∧ processJobStatus (fill_application_form true ⟨true, 2, true, true, true⟩).1 =
        STATUS_SUCCESS :=
  (C1_testmode_amended ⟨true, 2, true, true, true⟩).2.2 rfl

/-- Claim C2: in every run of the adaptive submit search no click action
is emitted; the report is positive exactly when a visible and enabled
candidate is observed; a positive report is accompanied by the manual
review pause and makes `_fill_adaptive` report the success-shaped status. -/
theorem C2_no_autoclick (env : AEnv) :
    AAction.clickSubmit ∉ (find_and_click_submit env.submitObs).2
    ∧ ((find_and_click_submit env.submitObs).1 = true ↔ some (true, true) ∈ env.submitObs)
    ∧ ((find_and_click_submit env.submitObs).1 = true →
        AAction.pause ∈ (find_and_click_submit env.submitObs).2
        ∧ (fill_adaptive env).status = "success") := by
  obtain ⟨h1, h2, h3⟩ := facs_spec env.submitObs
  refine ⟨h1, h2, fun hf => ⟨h3 hf, ?_⟩⟩
  simp [fill_adaptive, hf]

/-- Claim C2 witness: the theorem applied to a concrete environment whose
first submit observation is visible and enabled. -/
theorem C2_no_autoclick_witness :
    AAction.pause ∈ (find_and_click_submit [some (true, true)]).2
    ∧ (fill_adaptive ⟨[], false, false, false, [some (true, true)]⟩).status = "success" :=
  (C2_no_autoclick ⟨[], false, false, false, [some (true, true)]⟩).2.2 (by decide)

/-- Claim C4, counterexample: an adaptive attempt whose resume upload runs
and fails but whose submit search succeeds reports the status `success`,
not the `manual_required` the claim requires. -/
theorem C4_counterexample :
    (⟨[true], true, true, false, [some (true, true)]⟩ : AEnv).uploadOk = false
    ∧ (⟨[true], true, true, false, [some (true, true)]⟩ : AEnv).resumeProvided = true
    ∧ (⟨[true], true, true, false, [some (true, true)]⟩ : AEnv).hasFileUpload = true
    ∧ (fill_adaptive ⟨[true], true, true, false, [some (true, true)]⟩).status = "success"
    ∧ (fill_adaptive ⟨[true], true, true, false, [some (true, true)]⟩).status ≠
        "manual_required" := by
  decide

/-- Claim C4, amended: on the exception-free adaptive path the status is
`success` exactly when the submit search reports a target and
`manual_required` exactly when it does not — the resume-upload outcome
never affects the status, only the `fields_filled` count, which every
result carries as computed from the fill outcomes plus the upload bonus. -/
theorem C4_status_amended (env : AEnv) :
    ((fill_adaptive env).status = "success" ↔
        (find_and_click_submit env.submitObs).1 = true)
    ∧ ((fill_adaptive env).status = "manual_required" ↔
        (find_and_click_submit env.submitObs).1 = false)
    ∧ (fill_adaptive env).fieldsFilled =
        (env.fillOutcomes.filter (fun b => b = true)).length
          + (if env.resumeProvided && env.hasFileUpload && env.uploadOk then 1 else 0) := by
  unfold fill_adaptive
  cases h : (find_and_click_submit env.submitObs).1 <;>
    simp [h] <;> split <;> simp

/-- Claim C5, counterexample: a page whose HTML contains the brand name
`workday` while the URL matches no brand is classified `custom`, not
`workday` as the claim requires — the HTML fallback only tests
`greenhouse` and `lever`. -/
theorem C5_counterexample :
    detect_application_type
        (some ("https://jobs.example-hiring.com/apply", "Powered by Workday")) = "custom"
    ∧ containsSub (lowerStr "Powered by Workday") "workday" = true
    ∧ ("custom" : String) ≠ "workday" := by
  decide

/-- Claim C5, amended: classification always returns a member of the
closed tag set, returning `unknown` exactly on hard failure (the exception
path); on a fetched page the URL is tested against six brand substrings
(`ashby` via the literal `ashbyhq`) in priority order, but the HTML text
is tested only against `greenhouse` and `lever`, with `custom` otherwise. -/
theorem C5_closed_set_amended (oc : Option (String × String)) :
    detect_application_type oc ∈ atsTags
    ∧ (detect_application_type oc = "unknown" ↔ oc = none)
    ∧ (∀ url html, oc = some (url, html) →
        containsSub (lowerStr url) "greenhouse" = false →
        containsSub (lowerStr url) "lever" = false →
        containsSub (lowerStr url) "workday" = false →
        containsSub (lowerStr url) "taleo" = false →
        containsSub (lowerStr url) "smartrecruiters" = false →
        containsSub (lowerStr url) "ashbyhq" = false →
        containsSub (lowerStr html) "greenhouse" = false →
        containsSub (lowerStr html) "lever" = false →
        detect_application_type oc = "custom") := by
  refine ⟨?_, ?_, ?_⟩
  · cases oc with
    | none => simp [detect_application_type, atsTags]
    | some p =>
      obtain ⟨u, h⟩ := p
      simp only [detect_application_type, atsTags]
      repeat' split
      all_goals simp
  · cases oc with
    | none => simp [detect_application_type]
    | some p =>
      obtain ⟨u, h⟩ := p
      simp only [detect_application_type]
      repeat' split
      all_goals simp
  · intro url html heq h1 h2 h3 h4 h5 h6 h7 h8
    subst heq
    simp [detect_application_type, h1, h2, h3, h4, h5, h6, h7, h8]

/-- Claim C5 witness: the amended theorem applied to a concrete fetched
page matching no URL brand whose HTML names greenhouse. -/
theorem C5_closed_set_amended_witness :
    detect_application_type (some ("https://a.b", "uses greenhouse boards")) ∈ atsTags :=
  (C5_closed_set_amended (some ("https://a.b", "uses greenhouse boards"))).1

/-- If a category matches the composite and every category earlier in the
chain does not, the chain selects exactly that category. -/
theorem classify_eq_of_first (s : String) (c : Category)
    (h2 : matchesCat c s = true)
    (h3 : ∀ c2, priorIdx c2 < priorIdx c → matchesCat c2 s = false) :
    classify s = some c := by
  cases c with
  | email => simp [classify, h2]
  | phone =>
    have e0 := h3 .email (by decide)
    simp [classify, e0, h2]
  | firstName =>
    have e0 := h3 .email (by decide)
    have e1 := h3 .phone (by decide)
    simp [classify, e0, e1, h2]
  | lastName =>
    have e0 := h3 .email (by decide)
    have e1 := h3 .phone (by decide)
    have e2 := h3 .firstName (by decide)
    simp [classify, e0, e1, e2, h2]
  | fullName =>
    have e0 := h3 .email (by decide)
    have e1 := h3 .phone (by decide)
    have e2 := h3 .firstName (by decide)
    have e3 := h3 .lastName (by decide)
    simp [classify, e0, e1, e2, e3, h2]
  | linkedinUrl =>
    have e0 := h3 .email (by decide)
    have e1 := h3 .phone (by decide)
    have e2 := h3 .firstName (by decide)
    have e3 := h3 .lastName (by decide)
    have e4 := h3 .fullName (by decide)
    simp [classify, e0, e1, e2, e3, e4, h2]
  | portfolioUrl =>
    have e0 := h3 .email (by decide)
    have e1 := h3 .phone (by decide)
    have e2 := h3 .firstName (by decide)
    have e3 := h3 .lastName (by decide)
    have e4 := h3 .fullName (by decide)
    have e5 := h3 .linkedinUrl (by decide)
    simp [classify, e0, e1, e2, e3, e4, e5, h2]
  | addressLoc =>
    have e0 := h3 .email (by decide)
    have e1 := h3 .phone (by decide)
    have e2 := h3 .firstName (by decide)
    have e3 := h3 .lastName (by decide)
    have e4 := h3 .fullName (by decide)
    have e5 := h3 .linkedinUrl (by decide)
    have e6 := h3 .portfolioUrl (by decide)
    simp [classify, e0, e1, e2, e3, e4, e5, e6, h2]
  | yearsExp =>
    have e0 := h3 .email (by decide)
    have e1 := h3 .phone (by decide)
    have e2 := h3 .firstName (by decide)
    have e3 := h3 .lastName (by decide)
    have e4 := h3 .fullName (by decide)
    have e5 := h3 .linkedinUrl (by decide)
    have e6 := h3 .portfolioUrl (by decide)
    have e7 := h3 .addressLoc (by decide)
    simp [classify, e0, e1, e2, e3, e4, e5, e6, e7, h2]

/-- Claim C3, counterexample: a field whose non-empty id matches no
category but whose name attribute contains the email keyword is left
unassigned — the mapping is empty even though the composite the claim
describes (all four attribute texts) contains `email`. -/
theorem C3_counterexample :
    get_field_mapping { email := "user@example.com", name := "John Doe" }
        [{ id := "ref_code_42", name := "email" }] = []
    ∧ matchesCat Category.email (specComposite { id := "ref_code_42", name := "email" }) = true
    ∧ ({ email := "user@example.com", name := "John Doe" } : UserData).email ≠ "" := by
  decide

/-- Claim C3, amended: the classifier tests keyword containment against a
lowercase composite built from the usable identifier (id when non-empty,
otherwise name), the placeholder and the aria-label — the name text only
participates when the id is empty; in that case a name containing an email
keyword receives the email value. -/
theorem C3_composite_amended (u : UserData) (e : InputElem)
    (h1 : e.id = "") (h2 : e.name ≠ "")
    (h3 : containsSub (lowerStr (e.name ++ " " ++ e.placeholder ++ " " ++ e.ariaLabel))
        "email" = true) :
    get_field_mapping u [e] = [(e.name, u.email)] := by
  have hf : fieldId e = e.name := by simp [fieldId, h1]
  have hcomp : compositeOf e = lowerStr (e.name ++ " " ++ e.placeholder ++ " " ++ e.ariaLabel) := by
    simp [compositeOf, hf]
  have hm : matchesCat .email (compositeOf e) = true := by
    simp [matchesCat, catKeywords, List.any, hcomp, h3]
  have hc : classify (compositeOf e) = some .email := by
    simp [classify, hm]
  simp [get_field_mapping, runInputs, processInput, hf, h2, hc, valueFor, Except.map,
    insertAssoc]

/-- Claim C3 witness: the amended theorem applied to a concrete field with
empty id and an email-keyword name. -/
theorem C3_composite_amended_witness :
    get_field_mapping { email := "user@example.com", name := "John Doe" }
        [{ name := "applicant_email" }] = [("applicant_email", "user@example.com")] :=
  C3_composite_amended { email := "user@example.com", name := "John Doe" }
    { name := "applicant_email" } rfl (by decide) (by decide)

/-- Claim C6: category selection is deterministic and order-sensitive —
when a composite matches a category and none of the categories checked
earlier in the fixed chain, that category wins and its `UserData` value is
assigned under the usable field identifier. -/
theorem C6_priority (u : UserData) (e : InputElem) (c : Category) (v : String)
    (h1 : fieldId e ≠ "")
    (h2 : matchesCat c (compositeOf e) = true)
    (h3 : ∀ c2, priorIdx c2 < priorIdx c → matchesCat c2 (compositeOf e) = false)
    (h4 : valueFor u c = .ok v) :
    get_field_mapping u [e] = [(fieldId e, v)] := by
  have hc := classify_eq_of_first _ _ h2 h3
  simp [get_field_mapping, runInputs, processInput, h1, hc, h4, Except.map, insertAssoc]

/-- Claim C6 witness: a composite containing both an email keyword and a
phone keyword resolves to the email category, the first in the chain. -/
theorem C6_priority_witness :
    get_field_mapping { email := "user@example.com" } [{ id := "email_phone" }] =
      [("email_phone", "user@example.com")] :=
  C6_priority { email := "user@example.com" } { id := "email_phone" } Category.email
    "user@example.com" (by decide) (by decide)
    (fun c2 h => absurd h (by simp [priorIdx])) rfl

/-- Claim C8, counterexample: `hr@infosys.com` starts with no unwanted
word (its local part is the HR-preferred `hr`), yet it is dropped because
the unwanted word `info` occurs inside its domain — the filter tests
substring containment over the whole address, not the address prefix. -/
theorem C8_counterexample :
    filter_emails ["hr@infosys.com"] = []
    ∧ (∀ w ∈ unwantedWords, startsWith "hr@infosys.com" w = false)
    ∧ containsSub (lowerStr "hr@infosys.com") "info" = true := by
  decide

/-- Claim C8, amended: the final filter drops exactly those addresses in
which some unwanted word occurs as a case-insensitive substring anywhere
(prefix, local part or domain); every other address, HR-preferred or
neutral, is kept. -/
theorem C8_filter_amended (emails : List String) (e : String) :
    e ∈ filter_emails emails ↔
      e ∈ emails ∧ ∀ w ∈ unwantedWords, containsSub (lowerStr e) w = false := by
  have hk : keepEmail e = true ↔
      unwantedWords.any (fun w => containsSub (lowerStr e) w) = false := by
    unfold keepEmail
    by_cases h : unwantedWords.any (fun w => containsSub (lowerStr e) w) = true
    · simp [h]
    · simp only [Bool.not_eq_true] at h
      simp [h]
  simp [filter_emails, List.mem_filter, hk, List.any_eq_false]

/-- Claim C9: appending N records to an empty log and reading it back
yields exactly N rows, in order, each equal to the submitted record except
that the description is truncated to its first 500 characters. -/
theorem C9_log_roundtrip (ds : List AppData) :
    get_all_applications (ds.foldl add_application []) = ds.map rowOf
    ∧ (ds.foldl add_application []).length = ds.length
    ∧ ∀ d : AppData,
        (rowOf d).companyName = d.companyName
        ∧ (rowOf d).companyUrl = d.companyUrl
        ∧ (rowOf d).careerUrl = d.careerUrl
        ∧ (rowOf d).jobTitle = d.jobTitle
        ∧ (rowOf d).jobLocation = d.jobLocation
        ∧ (rowOf d).jobDescription = strTake d.jobDescription 500
        ∧ (rowOf d).applyLink = d.applyLink
        ∧ (rowOf d).hrEmail = d.hrEmail
        ∧ (rowOf d).statusText = d.statusText
        ∧ (rowOf d).errorText = d.errorText
        ∧ (rowOf d).resumePath = d.resumePath := by
  have key : ∀ (l : List AppData) (acc : List Row),
      l.foldl add_application acc = acc ++ l.map rowOf := by
    intro l
    induction l with
    | nil => intro acc; simp
    | cons d l ih =>
      intro acc
      simp only [List.foldl, List.map, add_application, ih]
      simp
  refine ⟨?_, ?_, ?_⟩
  · simp [get_all_applications, key]
  · simp [key]
  · intro d
    simp [rowOf]

/-- Stable-insertion step: the inserted element joins the list as a
multiset. -/
theorem insScored_perm (x : Job × Option Nat) (l : List (Job × Option Nat)) :
    (insScored x l).Perm (x :: l) := by
  induction l with
  | nil => simp [insScored]
  | cons y ys ih =>
    unfold insScored
    by_cases h : keyOf y < keyOf x
    · simp [h]
    · simp only [if_neg h]
      exact (ih.cons y).trans (List.Perm.swap x y ys)

/-- Stable-insertion step: descending order by key is preserved. -/
theorem insScored_pairwise (x : Job × Option Nat) (l : List (Job × Option Nat))
    (h : l.Pairwise (fun a b => keyOf b ≤ keyOf a)) :
    (insScored x l).Pairwise (fun a b => keyOf b ≤ keyOf a) := by
  induction l with
  | nil => simp [insScored]
  | cons y ys ih =>
    rcases List.pairwise_cons.mp h with ⟨hy, hys⟩
    unfold insScored
    by_cases hlt : keyOf y < keyOf x
    · simp only [if_pos hlt]
      refine List.pairwise_cons.mpr ⟨?_, h⟩
      intro b hb
      rcases List.mem_cons.mp hb with rfl | hb
      · exact Nat.le_of_lt hlt
      · exact Nat.le_trans (hy b hb) (Nat.le_of_lt hlt)
    · simp only [if_neg hlt]
      refine List.pairwise_cons.mpr ⟨?_, ih hys⟩
      intro b hb
      have hb2 : b ∈ x :: ys := (insScored_perm x ys).mem_iff.mp hb
      rcases List.mem_cons.mp hb2 with rfl | hb2
      · exact Nat.le_of_not_lt hlt
      · exact hy b hb2

/-- Stable-insertion step: restricted to one key value, the inserted
element lands at the end of its key block. -/
theorem insScored_filter (s : Nat) (x : Job × Option Nat) (l : List (Job × Option Nat))
    (h : l.Pairwise (fun a b => keyOf b ≤ keyOf a)) :
    (insScored x l).filter (fun p => keyOf p = s) =
      if keyOf x = s then l.filter (fun p => keyOf p = s) ++ [x]
      else l.filter (fun p => keyOf p = s) := by
  induction l with
  | nil =>
    by_cases hx : keyOf x = s <;> simp [insScored, List.filter, hx]
  | cons y ys ih =>
    rcases List.pairwise_cons.mp h with ⟨hy, hys⟩
    unfold insScored
    by_cases hlt : keyOf y < keyOf x
    · simp only [if_pos hlt]
      by_cases hx : keyOf x = s
      · have hnil : (y :: ys).filter (fun p => keyOf p = s) = [] := by
          rw [List.filter_eq_nil_iff]
          intro a ha
          rcases List.mem_cons.mp ha with rfl | ha
          · simp only [decide_eq_true_eq]
            omega
          · have := hy a ha
            simp only [decide_eq_true_eq]
            omega
        rw [if_pos hx, List.filter_cons_of_pos (by simp [hx]), hnil]
        simp
      · simp [List.filter, hx]
    · simp only [if_neg hlt]
      have ihs := ih hys
      by_cases hyv : keyOf y = s <;> by_cases hx : keyOf x = s <;>
        simp [List.filter, hyv, hx, ihs]

/-- The stable descending sort: permutation of its input. -/
theorem sortDescScore_perm (l : List (Job × Option Nat)) : (sortDescScore l).Perm l := by
  have key : ∀ (xs acc : List (Job × Option Nat)),
      (xs.foldl (fun a x => insScored x a) acc).Perm (acc ++ xs) := by
    intro xs
    induction xs with
    | nil => intro acc; simp
    | cons x xs ih =>
      intro acc
      have h1 : ((x :: xs).foldl (fun a x => insScored x a) acc)
          = xs.foldl (fun a x => insScored x a) (insScored x acc) := rfl
      have h2 := ih (insScored x acc)
      have h3 := (insScored_perm x acc).append_right xs
      have h4 : ((x :: acc) ++ xs).Perm (acc ++ x :: xs) := List.perm_middle.symm
      rw [h1]
      exact (h2.trans h3).trans h4
  simpa [sortDescScore] using key l []

/-- The stable descending sort: output is sorted by descending key. -/
theorem sortDescScore_pairwise (l : List (Job × Option Nat)) :
    (sortDescScore l).Pairwise (fun a b => keyOf b ≤ keyOf a) := by
  have key : ∀ (xs acc : List (Job × Option Nat)),
      acc.Pairwise (fun a b => keyOf b ≤ keyOf a) →
      (xs.foldl (fun a x => insScored x a) acc).Pairwise (fun a b => keyOf b ≤ keyOf a) := by
    intro xs
    induction xs with
    | nil => intro acc h; simpa using h
    | cons x xs ih =>
      intro acc h
      exact ih (insScored x acc) (insScored_pairwise x acc h)
  exact key l [] (by simp)

/-- The stable descending sort: restricted to any one key value, the
output lists the input elements of that key in their original order. -/
theorem sortDescScore_filter (s : Nat) (l : List (Job × Option Nat)) :
    (sortDescScore l).filter (fun p => keyOf p = s) = l.filter (fun p => keyOf p = s) := by
  have key : ∀ (xs acc : List (Job × Option Nat)),
      acc.Pairwise (fun a b => keyOf b ≤ keyOf a) →
      (xs.foldl (fun a x => insScored x a) acc).filter (fun p => keyOf p = s) =
        acc.filter (fun p => keyOf p = s) ++ xs.filter (fun p => keyOf p = s) := by
    intro xs
    induction xs with
    | nil => intro acc _; simp
    | cons x xs ih =>
      intro acc h
      have step := ih (insScored x acc) (insScored_pairwise x acc h)
      rw [show ((x :: xs).foldl (fun a x => insScored x a) acc)
            = xs.foldl (fun a x => insScored x a) (insScored x acc) from rfl, step,
        insScored_filter s x acc h]
      by_cases hx : keyOf x = s
      · simp [List.filter_cons, hx]
      · simp [List.filter_cons, hx]
  simpa using key l [] (by simp)

/-- Claim C7: with a non-empty keyword list, the relevance post-filter
keeps exactly the postings whose lowercased title-plus-description
contains at least one keyword, annotates each with its keyword match
count, and returns them sorted by descending count, preserving input
order among equal counts. -/
theorem C7_relevance_filter (kws : List String) (jobs : List Job) (h : kws ≠ []) :
    (filter_relevant_jobs kws jobs).Perm
        ((jobs.filter (fun j => 0 < scoreOf kws j)).map (fun j => (j, some (scoreOf kws j))))
    ∧ (filter_relevant_jobs kws jobs).Pairwise (fun a b => keyOf b ≤ keyOf a)
    ∧ (∀ s : Nat,
        (filter_relevant_jobs kws jobs).filter (fun p => keyOf p = s) =
          ((jobs.filter (fun j => 0 < scoreOf kws j)).map
              (fun j => (j, some (scoreOf kws j)))).filter (fun p => keyOf p = s))
    ∧ (∀ j : Job, 0 < scoreOf kws j ↔
        ∃ k ∈ kws, containsSub (jobText j) (lowerStr k) = true) := by
  have hne : kws.isEmpty = false := by
    cases kws with
    | nil => exact absurd rfl h
    | cons a l => rfl
  have hrw : filter_relevant_jobs kws jobs =
      sortDescScore
        ((jobs.filter (fun j => 0 < scoreOf kws j)).map
          (fun j => (j, some (scoreOf kws j)))) := by
    simp [filter_relevant_jobs, hne]
  refine ⟨?_, ?_, ?_, ?_⟩
  · rw [hrw]; exact sortDescScore_perm _
  · rw [hrw]; exact sortDescScore_pairwise _
  · intro s; rw [hrw]; exact sortDescScore_filter s _
  · intro j
    unfold scoreOf
    exact List.countP_pos_iff

/-- Claim C7 witness: the theorem applied to a concrete keyword list and
posting list. -/
theorem C7_relevance_filter_witness :
    (["backend"] : List String) ≠ []
    ∧ (filter_relevant_jobs ["backend"]
          [⟨"Backend Engineer", "builds apis"⟩, ⟨"Chef", "cooks"⟩]).Perm
        (([⟨"Backend Engineer", "builds apis"⟩,
            (⟨"Chef", "cooks"⟩ : Job)].filter (fun j => 0 < scoreOf ["backend"] j)).map
          (fun j => (j, some (scoreOf ["backend"] j)))) :=
  ⟨by decide,
    (C7_relevance_filter ["backend"]
      [⟨"Backend Engineer", "builds apis"⟩, ⟨"Chef", "cooks"⟩] (by decide)).1⟩

/-- In the mapping loop, a field whose composite classifies as first-name
while the user name splits to nothing raises, and the raise aborts the
whole loop whatever came before. -/
theorem runInputs_error_of_raising (u : UserData) (h1 : pySplit u.name = []) :
    ∀ (inputs : List InputElem) (e : InputElem), e ∈ inputs →
      fieldId e ≠ "" → classify (compositeOf e) = some Category.firstName →
      ∀ m, runInputs u inputs m = .error () := by
  intro inputs
  induction inputs with
  | nil => intro e he; cases he
  | cons a as ih =>
    intro e he h3 h4 m
    rcases List.mem_cons.mp he with rfl | he
    · simp [runInputs, processInput, h3, h4, valueFor, h1, Except.map]
    · cases hp : processInput u m a with
      | ok m2 => simp [runInputs, hp]; exact ih e he h3 h4 m2
      | error x => simp [runInputs, hp]

/-- Claim C10: when the user name is empty or whitespace-only and some
inventoried input with a usable identifier classifies as first-name (not
having matched email or phone earlier), `get_field_mapping` returns the
empty mapping — the indexing raise is swallowed by the top-level handler,
discarding every assignment made for the other fields of the attempt. -/
theorem C10_empty_name_aborts (u : UserData) (inputs : List InputElem) (e : InputElem)
    (h1 : pySplit u.name = [])
    (h2 : e ∈ inputs)
    (h3 : fieldId e ≠ "")
    (h4 : classify (compositeOf e) = some Category.firstName) :
    get_field_mapping u inputs = [] := by
  have herr := runInputs_error_of_raising u h1 inputs e h2 h3 h4 []
  simp [get_field_mapping, herr]

/-- Claim C10 witness: a whitespace-only user name and an input list whose
first entry is an email field (which alone would be mapped) followed by a
first-name field; the whole mapping collapses to empty. -/
theorem C10_empty_name_aborts_witness :
    pySplit (" " : String) = []
    ∧ get_field_mapping { name := " ", email := "user@example.com" }
        [{ id := "email" }, { id := "first_name" }] = []
    ∧ get_field_mapping { name := " ", email := "user@example.com" }
        [{ id := "email" }] = [("email", "user@example.com")] :=
  ⟨by decide,
    C10_empty_name_aborts { name := " ", email := "user@example.com" }
      [{ id := "email" }, { id := "first_name" }] { id := "first_name" }
      (by decide) (by decide) (by decide) (by decide),
    by decide⟩
